import Mathlib

/-!
Verification development for two CI/documentation lint utilities:
`scripts/ci/pre_commit/lint_json_schema.py` (a JSON/YAML schema validator CLI with an
ETag-based HTTP cache) and `docs/exts/docs_build/lint_checks.py` (documentation build
checks producing `DocBuildError` values).

The Python code is shallowly embedded: pure string/list manipulations become Lean
functions, filesystem and HTTP effects become explicit state passing over small state
types, and raised exceptions become `Except` errors.  Third-party library calls
(`json.load`, `yaml.safe_load`, the `jsonschema` keyword machinery, `hashlib.sha256`,
`requests.get`) are not repository code; they are abstracted as function parameters or
modelled where a claim needs their documented behaviour.
-/

/-! ## Generic character-list helpers (model of Python `in` on strings) -/

/-- Tests whether `pat` occurs as a leading block of `l`. -/
def charsStartWith : List Char → List Char → Bool
  | [], _ => true
  | _ :: _, [] => false
  | p :: ps, c :: cs => p == c && charsStartWith ps cs

/-- Tests whether `pat` occurs contiguously anywhere in `l`. -/
def charsContain (pat : List Char) : List Char → Bool
  | [] => pat.isEmpty
  | c :: cs => charsStartWith pat (c :: cs) || charsContain pat cs

/-- Model of the Python substring test `pat in s`. -/
def strContains (s pat : String) : Bool :=
  charsContain pat.data s.data

/-- Model of Python `str.lower()` (ASCII case folding suffices for the paths and
extensions involved). -/
def pyLower (s : String) : String :=
  String.mk (s.data.map Char.toLower)

/-- Model of Python `str.endswith(suffixStr)`. -/
def strEndsWith (s suffixStr : String) : Bool :=
  charsStartWith suffixStr.data.reverse s.data.reverse

/-- Replaces every non-overlapping occurrence of `pat` (assumed non-empty, as at
every use site) by `sub`, scanning left to right; structurally recursive on a fuel
that each step consumes no faster than the text, so a fuel of the text's length
always suffices. -/
def replaceChars (pat sub : List Char) : Nat → List Char → List Char
  | _, [] => []
  | 0, l => l
  | fuel + 1, c :: cs =>
    if pat ≠ [] ∧ charsStartWith pat (c :: cs) = true then
      sub ++ replaceChars pat sub fuel ((c :: cs).drop pat.length)
    else c :: replaceChars pat sub fuel cs

/-- Model of Python `str.replace(pat, sub)` for a non-empty pattern. -/
def pyReplace (s pat sub : String) : String :=
  String.mk (replaceChars pat.data sub.data s.data.length s.data)

/-- Model of a Python `dict` as an insertion-ordered association list; assignment
`m[k] = v` overwrites in place when the key exists and appends otherwise. -/
def setAssoc {β : Type} (m : List (String × β)) (k : String) (v : β) : List (String × β) :=
  if m.any (fun p => p.1 == k) then
    m.map (fun p => if p.1 == k then (k, v) else p)
  else m ++ [(k, v)]

/-! ## Data model for `lint_json_schema.py` -/

/-- In-memory document produced by parsing JSON or YAML (the values `json.load` and
`yaml.safe_load` return: None, booleans, numbers, strings, lists, dicts). -/
inductive JValue where
  | null
  | bool (b : Bool)
  | num (n : Int)
  | str (s : String)
  | arr (elems : List JValue)
  | obj (fields : List (String × JValue))

mutual

def decEqJValue : (a b : JValue) → Decidable (a = b)
  | .null, .null => isTrue rfl
  | .bool a, .bool b =>
    match decEq a b with
    | isTrue h => isTrue (h ▸ rfl)
    | isFalse h => isFalse (fun hh => h (JValue.bool.inj hh))
  | .num a, .num b =>
    match decEq a b with
    | isTrue h => isTrue (h ▸ rfl)
    | isFalse h => isFalse (fun hh => h (JValue.num.inj hh))
  | .str a, .str b =>
    match decEq a b with
    | isTrue h => isTrue (h ▸ rfl)
    | isFalse h => isFalse (fun hh => h (JValue.str.inj hh))
  | .arr a, .arr b =>
    match decEqJList a b with
    | isTrue h => isTrue (h ▸ rfl)
    | isFalse h => isFalse (fun hh => h (JValue.arr.inj hh))
  | .obj a, .obj b =>
    match decEqJFields a b with
    | isTrue h => isTrue (h ▸ rfl)
    | isFalse h => isFalse (fun hh => h (JValue.obj.inj hh))
  | .null, .bool _ => isFalse (by intro h; exact JValue.noConfusion h)
  | .null, .num _ => isFalse (by intro h; exact JValue.noConfusion h)
  | .null, .str _ => isFalse (by intro h; exact JValue.noConfusion h)
  | .null, .arr _ => isFalse (by intro h; exact JValue.noConfusion h)
  | .null, .obj _ => isFalse (by intro h; exact JValue.noConfusion h)
  | .bool _, .null => isFalse (by intro h; exact JValue.noConfusion h)
  | .bool _, .num _ => isFalse (by intro h; exact JValue.noConfusion h)
  | .bool _, .str _ => isFalse (by intro h; exact JValue.noConfusion h)
  | .bool _, .arr _ => isFalse (by intro h; exact JValue.noConfusion h)
  | .bool _, .obj _ => isFalse (by intro h; exact JValue.noConfusion h)
  | .num _, .null => isFalse (by intro h; exact JValue.noConfusion h)
  | .num _, .bool _ => isFalse (by intro h; exact JValue.noConfusion h)
  | .num _, .str _ => isFalse (by intro h; exact JValue.noConfusion h)
  | .num _, .arr _ => isFalse (by intro h; exact JValue.noConfusion h)
  | .num _, .obj _ => isFalse (by intro h; exact JValue.noConfusion h)
  | .str _, .null => isFalse (by intro h; exact JValue.noConfusion h)
  | .str _, .bool _ => isFalse (by intro h; exact JValue.noConfusion h)
  | .str _, .num _ => isFalse (by intro h; exact JValue.noConfusion h)
  | .str _, .arr _ => isFalse (by intro h; exact JValue.noConfusion h)
  | .str _, .obj _ => isFalse (by intro h; exact JValue.noConfusion h)
  | .arr _, .null => isFalse (by intro h; exact JValue.noConfusion h)
  | .arr _, .bool _ => isFalse (by intro h; exact JValue.noConfusion h)
  | .arr _, .num _ => isFalse (by intro h; exact JValue.noConfusion h)
  | .arr _, .str _ => isFalse (by intro h; exact JValue.noConfusion h)
  | .arr _, .obj _ => isFalse (by intro h; exact JValue.noConfusion h)
  | .obj _, .null => isFalse (by intro h; exact JValue.noConfusion h)
  | .obj _, .bool _ => isFalse (by intro h; exact JValue.noConfusion h)
  | .obj _, .num _ => isFalse (by intro h; exact JValue.noConfusion h)
  | .obj _, .str _ => isFalse (by intro h; exact JValue.noConfusion h)
  | .obj _, .arr _ => isFalse (by intro h; exact JValue.noConfusion h)

def decEqJList : (a b : List JValue) → Decidable (a = b)
  | [], [] => isTrue rfl
  | [], _ :: _ => isFalse (by intro h; exact List.noConfusion h)
  | _ :: _, [] => isFalse (by intro h; exact List.noConfusion h)
  | a :: as, b :: bs =>
    match decEqJValue a b with
    | isFalse h => isFalse (fun hh => h (List.cons.inj hh).1)
    | isTrue h1 =>
      match decEqJList as bs with
      | isTrue h2 => isTrue (h1 ▸ h2 ▸ rfl)
      | isFalse h => isFalse (fun hh => h (List.cons.inj hh).2)

def decEqJFields : (a b : List (String × JValue)) → Decidable (a = b)
  | [], [] => isTrue rfl
  | [], _ :: _ => isFalse (by intro h; exact List.noConfusion h)
  | _ :: _, [] => isFalse (by intro h; exact List.noConfusion h)
  | (ka, va) :: as, (kb, vb) :: bs =>
    match decEq ka kb with
    | isFalse h => isFalse (fun hh => h (congrArg (fun l => (l.headD ("", .null)).1) hh))
    | isTrue hk =>
      match decEqJValue va vb with
      | isFalse h => isFalse (fun hh => h (congrArg (fun l => (l.headD ("", .null)).2) hh))
      | isTrue hv =>
        match decEqJFields as bs with
        | isTrue ht => isTrue (hk ▸ hv ▸ ht ▸ rfl)
        | isFalse h => isFalse (fun hh => h (List.cons.inj hh).2)

end

instance : DecidableEq JValue := decEqJValue

mutual

/-- Model of Python `repr` on parsed JSON values (quotes strings, brackets lists,
braces dicts); string escaping is not modelled since no claim inspects it. -/
def pyRepr : JValue → String
  | .null => "None"
  | .bool true => "True"
  | .bool false => "False"
  | .num n => toString n
  | .str s => "'" ++ s ++ "'"
  | .arr elems => "[" ++ pyReprCommaSep elems ++ "]"
  | .obj fields => "\x7b" ++ pyReprFields fields ++ "\x7d"

def pyReprCommaSep : List JValue → String
  | [] => ""
  | [v] => pyRepr v
  | v :: rest => pyRepr v ++ ", " ++ pyReprCommaSep rest

def pyReprFields : List (String × JValue) → String
  | [] => ""
  | [p] => "'" ++ p.1 ++ "': " ++ pyRepr p.2
  | p :: rest => "'" ++ p.1 ++ "': " ++ pyRepr p.2 ++ ", " ++ pyReprFields rest
end

/-- Model of Python `str` on parsed JSON values (`str` differs from `repr` only on
top-level strings, which print without quotes). -/
def pyStr : JValue → String
  | .str s => s
  | v => pyRepr v

/-- One `jsonschema.exceptions.ValidationError`, identified by its message. -/
structure ValidationError where
  message : String
deriving DecidableEq

/-- Python exceptions raised by the validator CLI. -/
inductive PyError where
  | validatorError (msg : String)
  | jsonDecodeError (msg : String)
  | yamlError (msg : String)
  | fileNotFound (path : String)
  | valueError (msg : String)
  | httpError (status : Nat)
deriving DecidableEq

/-- Abstraction of the third-party parsers the script calls: `json.load` /
`json.loads` and `yaml.safe_load`, each taking file content to a document or a
parse error. -/
structure Loaders where
  json_load : String → Except String JValue
  yaml_safe_load : String → Except String JValue

/-- Embedding of `load_file` (lint_json_schema.py lines 100-108): dispatches on the
lower-cased path's extension; `.json` goes to `json.load`, `.yaml`/`.yml` to
`yaml.safe_load`, anything else raises `_ValidatorError`.  The filesystem is the
map `fs` from paths to contents. -/
def load_file (ld : Loaders) (fs : String → Option String) (file_path : String) :
    Except PyError JValue :=
  if strEndsWith (pyLower file_path) ".json" then
    match fs file_path with
    | none => .error (.fileNotFound file_path)
    | some content => (ld.json_load content).mapError .jsonDecodeError
  else if strEndsWith (pyLower file_path) ".yaml" || strEndsWith (pyLower file_path) ".yml" then
    match fs file_path with
    | none => .error (.fileNotFound file_path)
    | some content => (ld.yaml_safe_load content).mapError .yamlError
  else
    .error (.validatorError "Unknown file format. Supported extension: '.yaml', '.json'")

/-- Embedding of `_default_validator` (lines 145-148): yields one error unless the
instance equals the sub-schema's default or the default is the literal string
"See values.yaml". -/
def _default_validator (default : JValue) (inst : JValue) : List ValidationError :=
  if default ≠ inst ∧ default ≠ .str "See values.yaml" then
    [⟨pyStr inst ++ " is not equal to the default of " ++ pyStr default⟩]
  else []

/-- Modelled from the spec: the `jsonschema` keyword machinery (`validator_for`,
`extend`, `iter_errors`) is third-party library code absent from the repository.
For schemas of the shape the spec uses — `"type":"object"` with `"properties"`
whose sub-schemas carry at most a `"default"` keyword — the library's error
iteration rejects non-object instances via the `"type"` rule and descends via the
`"properties"` rule into each instance field present, applying the `"default"`
keyword rule there only when the validator was extended with it. -/
def iter_errors_object_defaults (props : List (String × Option JValue))
    (enforce_defaults : Bool) (inst : JValue) : List ValidationError :=
  match inst with
  | .obj fields =>
    props.flatMap (fun pr =>
      match pr.2, fields.lookup pr.1 with
      | some d, some v => if enforce_defaults then _default_validator d v else []
      | _, _ => [])
  | _ => [⟨pyStr inst ++ " is not of type 'object'"⟩]

/-- Embedding of `_create_validator` (lines 137-142) over the schema shape above:
when `enforce_defaults` is set the validator class is extended with
`_default_validator` for the `"default"` keyword. -/
def _create_validator (props : List (String × Option JValue)) (enforce_defaults : Bool) :
    JValue → List ValidationError :=
  iter_errors_object_defaults props enforce_defaults

/-- Observable output of `_process_files`: the files announced with
"Processing file: " and the validation errors printed. -/
structure RunLog where
  processed : List String
  printed : List ValidationError
deriving DecidableEq

/-- Loop body of `_process_files` (lines 126-134) with the running exit code and
print log made explicit; a `load_file` exception propagates as `.error`. -/
def _process_files_go (ld : Loaders) (fs : String → Option String)
    (validator : JValue → List ValidationError) :
    List String → Nat → RunLog → Except PyError (Nat × RunLog)
  | [], exit_code, log => .ok (exit_code, log)
  | input_path :: rest, exit_code, log =>
    match load_file ld fs input_path with
    | .error e => .error e
    | .ok inst =>
      let errs := validator inst
      _process_files_go ld fs validator rest
        (if errs.isEmpty then exit_code else 1)
        { processed := log.processed ++ [input_path], printed := log.printed ++ errs }

/-- Embedding of `_process_files` (lines 126-134): starts with exit code 0, loads
and validates every file in order, prints each error and flips the exit code to 1
on any error. -/
def _process_files (ld : Loaders) (fs : String → Option String)
    (validator : JValue → List ValidationError) (file_paths : List String) :
    Except PyError (Nat × RunLog) :=
  _process_files_go ld fs validator file_paths 0 ⟨[], []⟩

/-- Model of `re.sub(r"[^a-zA-Z0-9]", "-", s)` used to derive the cache output
filename from the spec URL. -/
def sanitize_filename (s : String) : String :=
  String.mk (s.data.map (fun c => if c.isAlphanum then c else '-'))

/-- Embedding of `_load_spec` (lines 151-158).  The cache layer is abstracted by
`fetched : url -> local path` (its behaviour is verified separately on
`fetch_and_cache`); the schema file content is always parsed with `json.loads`,
never through `load_file`'s extension dispatch. -/
def _load_spec (ld : Loaders) (fs : String → Option String) (fetched : String → String)
    (spec_file : Option String) (spec_url : Option String) : Except PyError JValue :=
  let spec_file' :=
    match spec_url with
    | some url => if url = "" then spec_file else some (fetched url)
    | none => spec_file
  match spec_file' with
  | none => .error (.valueError "The spec_file was None and spec_url did not lead to any file loading.")
  | some sf =>
    if sf = "" then
      .error (.valueError "The spec_file was None and spec_url did not lead to any file loading.")
    else
      match fs sf with
      | none => .error (.fileNotFound sf)
      | some content => (ld.json_load content).mapError .jsonDecodeError

/-! ## Data model for `fetch_and_cache` -/

/-- One HTTP request issued via `requests.get`: the URL and the optional
`If-None-Match` header. -/
structure HttpRequest where
  url : String
  if_none_match : Option String
deriving DecidableEq

/-- One HTTP response: status code, body bytes and the optional `ETag` header
(`res.headers.get("etag")`). -/
structure HttpResponse where
  status_code : Nat
  content : List Nat
  etag_header : Option String
deriving DecidableEq

/-- State of the on-disk `cache-metadata.json` file: absent, present but not valid
JSON, or a parsed mapping from cache key to ETag. -/
inductive MetadataFile where
  | absent
  | corrupt
  | parsed (entries : List (String × String))
deriving DecidableEq

/-- State of the cache directory: the metadata file plus the blob files keyed by
their filename. -/
structure CacheState where
  metadata : MetadataFile
  blobs : List (String × List Nat)
deriving DecidableEq

/-- Complete outcome of one `fetch_and_cache` call: the returned path or the raised
error, the final cache directory state, and every request issued. -/
structure FetchOutcome where
  result : Except PyError String
  state : CacheState
  requests : List HttpRequest

/-- Slow path of `fetch_and_cache` (lines 79-93): unconditional GET,
`raise_for_status` on a 4xx/5xx status, blob overwrite, and metadata persistence
only when the response carries a truthy ETag header. -/
def fetch_slow (server : HttpRequest → HttpResponse) (cache_key cache_filepath url : String)
    (cache_metadata : List (String × String)) (st : CacheState) (reqs : List HttpRequest) :
    FetchOutcome :=
  let res := server ⟨url, none⟩
  let reqs' := reqs ++ [⟨url, none⟩]
  if 400 ≤ res.status_code then
    ⟨.error (.httpError res.status_code), st, reqs'⟩
  else
    let st' : CacheState := { st with blobs := setAssoc st.blobs cache_filepath res.content }
    match res.etag_header with
    | some et =>
      if et = "" then ⟨.ok cache_filepath, st', reqs'⟩
      else
        ⟨.ok cache_filepath,
          { st' with metadata := .parsed (setAssoc cache_metadata cache_key et) }, reqs'⟩
    | none => ⟨.ok cache_filepath, st', reqs'⟩

/-- Embedding of `fetch_and_cache` (lines 55-93).  `gethash` abstracts `_gethash`
(a sha256 digest truncated to 8 hex characters) and `server` abstracts the remote
host's response to one `requests.get`.  A corrupt metadata file is deleted; when
the blob exists and a truthy ETag is recorded, a conditional request is issued
first and a 304 response short-circuits with the cached blob. -/
def fetch_and_cache (gethash : String → String) (server : HttpRequest → HttpResponse)
    (url : String) (output_filename : String) (st0 : CacheState) : FetchOutcome :=
  let cache_key := gethash url
  let cache_filepath := cache_key ++ "-" ++ output_filename.take 64
  let st :=
    match st0.metadata with
    | .corrupt => { st0 with metadata := .absent }
    | _ => st0
  let cache_metadata : List (String × String) :=
    match st.metadata with
    | .parsed m => m
    | _ => []
  match st.blobs.lookup cache_filepath, cache_metadata.lookup cache_key with
  | some _, some etag =>
    if etag = "" then fetch_slow server cache_key cache_filepath url cache_metadata st []
    else
      let res := server ⟨url, some etag⟩
      if res.status_code = 304 then
        ⟨.ok cache_filepath, st, [⟨url, some etag⟩]⟩
      else fetch_slow server cache_key cache_filepath url cache_metadata st [⟨url, some etag⟩]
  | _, _ => fetch_slow server cache_key cache_filepath url cache_metadata st []

/-! ## Data model for `lint_checks.py` -/

/-- One documentation build error (docs_build/errors.py): file, optional line, message. -/
structure DocBuildError where
  file_path : String
  line_no : Option Nat
  message : String
deriving DecidableEq

/-- One Python class definition as seen through the `ast` module: its name, the line
number of the `class` statement, and the result of `ast.get_docstring`. -/
structure ClassDef where
  name : String
  lineno : Nat
  docstring : Option String
deriving DecidableEq

/-- One Python module file: its path, its full source text, and the class definitions
of its syntax tree in `ast.walk` order.  `astClasses` models a successful
`ast.parse` of `content`. -/
structure PyModule where
  path : String
  content : String
  astClasses : List ClassDef
deriving DecidableEq

/-- Embedding of `extract_ast_class_def_by_name` (lint_checks.py lines 54-66): the
first class node of the walk whose name matches. -/
def extract_ast_class_def_by_name (astClasses : List ClassDef) (class_name : String) :
    Option ClassDef :=
  astClasses.find? (fun node => node.name == class_name)

/-- Message of the error produced by `_generate_missing_guide_error` (lines 69-81). -/
def guideErrMsg (operator_name : String) : String :=
  "Link to the guide is missing in operator's description: " ++ operator_name ++
    ".\nPlease add link to the guide to the description in the following form:\n\n" ++
    ".. seealso::\n    For more information on how to use this operator, take a look at the guide:\n    :ref:`howto/operator:" ++
    operator_name ++ "`\n"

/-- Embedding of `_generate_missing_guide_error` (lines 69-81). -/
def _generate_missing_guide_error (path : String) (line_no : Nat) (operator_name : String) :
    DocBuildError :=
  { file_path := path, line_no := some line_no, message := guideErrMsg operator_name }

/-- Body of the inner loop of `_check_missing_guide_references` (lines 131-152) for one
operator name in one module: the cheap substring filter, the authoritative AST
lookup, and the docstring checks (an absent or empty docstring is falsy and so
produces the error). -/
def check_operator_in_module (m : PyModule) (existing_operator : String) :
    List DocBuildError :=
  if strContains m.content ("class " ++ existing_operator) = false then []
  else
    match extract_ast_class_def_by_name m.astClasses existing_operator with
    | none => []
    | some class_def =>
      match class_def.docstring with
      | some docstring =>
        if docstring ≠ "" then
          if strContains docstring "This class is deprecated." then []
          else if strContains docstring (":ref:`howto/operator:" ++ existing_operator ++ "`") then []
          else [_generate_missing_guide_error m.path class_def.lineno existing_operator]
        else [_generate_missing_guide_error m.path class_def.lineno existing_operator]
      | none => [_generate_missing_guide_error m.path class_def.lineno existing_operator]

/-- Outer loop body of `_check_missing_guide_references` (lines 125-152) for one
module: a module whose content contains "This module is deprecated" is skipped. -/
def check_module_guide_refs (operator_names : List String) (m : PyModule) :
    List DocBuildError :=
  if strContains m.content "This module is deprecated" then []
  else operator_names.flatMap (check_operator_in_module m)

/-- Embedding of `_check_missing_guide_references` (lines 122-153). -/
def _check_missing_guide_references (operator_names : List String)
    (python_module_paths : List PyModule) : List DocBuildError :=
  python_module_paths.flatMap (check_module_guide_refs operator_names)

/-- Identifies the errors produced for one (module path, operator name) pair: the
file path and the message generated for that operator. -/
def guideErrFor (path op : String) (e : DocBuildError) : Bool :=
  e.file_path == path && e.message == guideErrMsg op

/-! ### The anchor-name scan (`find_existing_guide_operator_names`) -/

/-- Literal part of the regex `.. _howto/operator:(.+?):`. -/
def anchorLit : List Char := ".. _howto/operator:".data

/-- Helper for the lazy group `(.+?):` after the first captured character: the
shortest run of characters before a `:`, failing if a newline comes first. -/
def takeUntilColon : List Char → Option (List Char × List Char)
  | [] => none
  | c :: cs =>
    if c = ':' then some ([], cs)
    else if c = '\n' then none
    else
      match takeUntilColon cs with
      | some pr => some (c :: pr.1, pr.2)
      | none => none

/-- Match of the tail `(.+?):` of the anchor regex at the current position: the
capture (at least one non-newline character, lazily extended to the next `:`) and
the remaining text after the closing `:`. -/
def scanCapture : List Char → Option (List Char × List Char)
  | [] => none
  | c :: cs =>
    if c = '\n' then none
    else
      match takeUntilColon cs with
      | some pr => some (c :: pr.1, pr.2)
      | none => none

theorem takeUntilColon_length :
    ∀ l pre rest, takeUntilColon l = some (pre, rest) → rest.length < l.length := by
  intro l
  induction l with
  | nil => intro pre rest h; simp [takeUntilColon] at h
  | cons c cs ih =>
    intro pre rest h
    simp only [takeUntilColon] at h
    split at h
    · simp only [Option.some.injEq, Prod.mk.injEq] at h
      simp [← h.2, List.length_cons, Nat.lt_succ_self]
    · split at h
      · exact absurd h (by simp)
      · cases heq : takeUntilColon cs with
        | none => rw [heq] at h; exact absurd h (by simp)
        | some pr =>
          rw [heq] at h
          simp only [Option.some.injEq, Prod.mk.injEq] at h
          have := ih pr.1 pr.2 heq
          simp only [← h.2, List.length_cons]
          omega

theorem scanCapture_length :
    ∀ l cap rest, scanCapture l = some (cap, rest) → rest.length < l.length := by
  intro l cap rest h
  cases l with
  | nil => simp [scanCapture] at h
  | cons c cs =>
    simp only [scanCapture] at h
    split at h
    · exact absurd h (by simp)
    · cases heq : takeUntilColon cs with
      | none => rw [heq] at h; exact absurd h (by simp)
      | some pr =>
        rw [heq] at h
        simp only [Option.some.injEq, Prod.mk.injEq] at h
        have := takeUntilColon_length cs pr.1 pr.2 heq
        simp only [← h.2, List.length_cons]
        omega

/-- Scan modelling `re.findall(".. _howto/operator:(.+?):", text)`: non-overlapping
matches found left to right; on a successful match scanning resumes after the
closing `:`, otherwise it advances one character. -/
def findAnchorsAux (l : List Char) : List String :=
  match l with
  | [] => []
  | c :: cs =>
    if charsStartWith anchorLit (c :: cs) then
      match hsc : scanCapture ((c :: cs).drop anchorLit.length) with
      | some pr => String.mk pr.1 :: findAnchorsAux pr.2
      | none => findAnchorsAux cs
    else findAnchorsAux cs
termination_by l.length
decreasing_by
  · have h1 := scanCapture_length _ _ _ hsc
    have h2 : ((c :: cs).drop anchorLit.length).length ≤ (c :: cs).length := by
      rw [List.length_drop]; omega
    simp only [List.length_cons] at *
    omega
  · simp
  · simp

/-- Embedding of `find_existing_guide_operator_names` (lines 39-51): the anchor names
of every matched rst file, as a Python set (modelled as a duplicate-free list). -/
def find_existing_guide_operator_names (rst_contents : List String) : List String :=
  (rst_contents.flatMap (fun content => findAnchorsAux content.data)).dedup

/-! ### Line matchers for the regex patterns of the rst checks -/

/-- Matcher for `re.search(r"^.. code::", line)`: the two leading `.` match any two
non-newline characters, followed by the literal ` code::`. -/
def code_block_line_match (line : String) : Bool :=
  match line.data with
  | c1 :: c2 :: rest => c1 != '\n' && c2 != '\n' && charsStartWith " code::".data rest
  | _ => false

/-- Matcher for the regex fragment `.+(?:A|B)`: at least one non-newline character,
then one of the target literals. -/
def dot_plus_then (targets : List (List Char)) : List Char → Bool
  | [] => false
  | c :: cs =>
    if c = '\n' then false
    else (targets.any (fun t => charsStartWith t cs)) || dot_plus_then targets cs

/-- Literal head of the exampleinclude pattern. -/
def litincChars : List Char := "literalinclude::".data

/-- Matcher for `re.search(r"literalinclude::.+(?:example_dags|tests/system/)", line)`. -/
def literalinclude_search : List Char → Bool
  | [] => false
  | c :: cs =>
    (charsStartWith litincChars (c :: cs) &&
      dot_plus_then ["example_dags".data, "tests/system/".data] ((c :: cs).drop litincChars.length))
    || literalinclude_search cs

/-- Matcher applied per line by `literalinclude` check. -/
def literalinclude_line_match (line : String) : Bool :=
  literalinclude_search line.data

/-- Model of iterating an opened file: its lines split on newline (the trailing
newline of each physical line is immaterial to every matcher used). -/
def pyLines (s : String) : List String :=
  let parts := s.splitOn "\n"
  if parts.getLast? = some "" then parts.dropLast else parts

/-- Model of Python `re.escape` (escapes the regex special characters). -/
def re_escape (s : String) : String :=
  String.mk (s.data.flatMap (fun c =>
    if ['(', ')', '[', ']', Char.ofNat 123, Char.ofNat 125, '?', '*', '+', '-', '|',
        '^', '$', '\\', '.', '&', '~', '#', ' ', '\t', '\n', '\r',
        Char.ofNat 11, Char.ofNat 12].contains c
    then ['\\', c] else [c]))

/-- Default message built by `_extract_file_content` when none is supplied. -/
def defaultPatternMsg (patternStr file_path : String) : String :=
  "Pattern '" ++ patternStr ++ "' could not be found in '" ++ file_path ++ "' file."

/-- Embedding of `_extract_file_content` (lines 180-196): scans the file's lines; for
a negative assertion it returns an error at the first matching line, for a
positive assertion it returns a line-less error when no line matches.  The regex
is carried as its pattern string (for the default message) plus its compiled
line matcher. -/
def _extract_file_content (file_path : String) (content : String) (message : Option String)
    (patternStr : String) (matcher : String → Bool) (expected_contain : Bool) :
    Option DocBuildError :=
  let msg :=
    match message with
    | some s => if s = "" then defaultPatternMsg patternStr file_path else s
    | none => defaultPatternMsg patternStr file_path
  if expected_contain then
    if (pyLines content).any matcher then none
    else some { file_path := file_path, line_no := none, message := msg }
  else
    match (pyLines content).findIdx? matcher with
    | some i => some { file_path := file_path, line_no := some (i + 1), message := msg }
    | none => none

/-- Embedding of `assert_file_not_contains` (lines 156-166). -/
def assert_file_not_contains (file_path content : String) (patternStr : String)
    (matcher : String → Bool) (message : Option String) : Option DocBuildError :=
  _extract_file_content file_path content message patternStr matcher false

/-- Embedding of `assert_file_contains` (lines 169-177). -/
def assert_file_contains (file_path content : String) (patternStr : String)
    (matcher : String → Bool) (message : Option String) : Option DocBuildError :=
  _extract_file_content file_path content message patternStr matcher true

/-! ### The filesystem world the checks run over -/

/-- One provider package as consumed by the checks: its registry entry fields, the
contents of its operator-guide rst files, the Python modules matched under its
package directory, and its `docs/index.rst` when that file exists. -/
structure Provider where
  package_name : String
  guide_rst_contents : List String
  modules : List PyModule
  index_content : Option String
deriving DecidableEq

/-- The filesystem tree the doc-lint checks read: the core operator-guide rst files
and core operator/sensor modules, the provider registry, and every rst file under
the docs root as (path, content). -/
structure DocsWorld where
  root : String
  core_guide_rst_contents : List String
  core_modules : List PyModule
  providers : List Provider
  docs_rst_files : List (String × String)
deriving DecidableEq

/-- Embedding of `check_guide_links_in_operator_descriptions` (lines 84-119): core
guides against core operator/sensor modules, then per provider its guides against
its modules. -/
def check_guide_links_in_operator_descriptions (w : DocsWorld) : List DocBuildError :=
  _check_missing_guide_references
      (find_existing_guide_operator_names w.core_guide_rst_contents) w.core_modules
    ++ w.providers.flatMap (fun provider =>
        _check_missing_guide_references
          (find_existing_guide_operator_names provider.guide_rst_contents) provider.modules)

/-- Message of the exampleinclude check (lines 242-245). -/
def exampleIncludeMsg : String :=
  "literalinclude directive is prohibited for example dags. \nYou should use the exampleinclude directive to include example dags."

/-- Embedding of `check_exampleinclude_for_example_dags` (lines 234-249). -/
def check_exampleinclude_for_example_dags (w : DocsWorld) : List DocBuildError :=
  w.docs_rst_files.filterMap (fun pc =>
    assert_file_not_contains pc.1 pc.2 "literalinclude::.+(?:example_dags|tests/system/)"
      literalinclude_line_match (some exampleIncludeMsg))

/-- Message of the code-block check (lines 260-263). -/
def codeBlockMsg : String :=
  "We recommend using the code-block directive instead of the code directive. The code-block directive is more feature-full."

/-- Embedding of `check_enforce_code_block` (lines 252-267). -/
def check_enforce_code_block (w : DocsWorld) : List DocBuildError :=
  w.docs_rst_files.filterMap (fun pc =>
    assert_file_not_contains pc.1 pc.2 "^.. code::" code_block_line_match (some codeBlockMsg))

/-- Embedding of the provider-id derivation in `get_indexfile` (line 278). -/
def provider_id (package_name : String) : String :=
  pyReplace (pyReplace package_name "apache-airflow-providers-" "") "-" "."

/-- Path of the candidate `index.rst` built by `get_indexfile` (line 279). -/
def index_candidate_path (root package_name : String) : String :=
  root ++ "/providers/" ++ pyReplace (provider_id package_name) "." "/" ++ "/docs/index.rst"

/-- Embedding of `get_indexfile` (lines 276-282): returns the candidate path (with
its content in this model) or raises `ValueError` when the file does not exist. -/
def get_indexfile (root : String) (provider : Provider) : Except String (String × String) :=
  match provider.index_content with
  | some content => .ok (index_candidate_path root provider.package_name, content)
  | none =>
    .error ("The index.rst for " ++ provider.package_name ++ " does not exist at "
      ++ index_candidate_path root provider.package_name)

/-- Loop of `check_pypi_repository_in_provider_tocs` (lines 285-302): a raised
`ValueError` from `get_indexfile` aborts the loop. -/
def check_pypi_go (root : String) : List Provider → Except String (List DocBuildError)
  | [] => .ok []
  | provider :: rest =>
    match get_indexfile root provider with
    | .error e => .error e
    | .ok pc =>
      let expected_text :=
        "PyPI Repository <https://pypi.org/project/" ++ provider.package_name ++ "/>"
      let msg :=
        "A link to the PyPI in table of contents is missing. Can you please add it?\n\n    "
          ++ expected_text
      let build_error :=
        assert_file_contains pc.1 pc.2 (re_escape expected_text)
          (fun line => strContains line expected_text) (some msg)
      match check_pypi_go root rest with
      | .error e => .error e
      | .ok errs =>
        match build_error with
        | some e => .ok (e :: errs)
        | none => .ok errs

/-- Embedding of `check_pypi_repository_in_provider_tocs` (lines 285-302). -/
def check_pypi_repository_in_provider_tocs (w : DocsWorld) :
    Except String (List DocBuildError) :=
  check_pypi_go w.root w.providers

/-- Embedding of `run_all_check` (lines 305-313): the three general checks, then the
provider TOC check unless disabled; an exception escaping any check aborts the
run with no list returned. -/
def run_all_check (w : DocsWorld) (disable_provider_checks : Bool) :
    Except String (List DocBuildError) :=
  let g1 := check_guide_links_in_operator_descriptions w
  let g2 := check_enforce_code_block w
  let g3 := check_exampleinclude_for_example_dags w
  if disable_provider_checks then .ok (g1 ++ g2 ++ g3)
  else
    match check_pypi_repository_in_provider_tocs w with
    | .error e => .error e
    | .ok g4 => .ok (g1 ++ g2 ++ g3 ++ g4)

/-! ## Helper lemmas -/

theorem except_mapError_ne_validator (e : Except String JValue)
    (f : String → PyError) (hf : ∀ s m, f s ≠ .validatorError m) (m : String) :
    e.mapError f ≠ .error (.validatorError m) := by
  cases e with
  | ok v => simp [Except.mapError]
  | error s => simp [Except.mapError]; exact hf s m

theorem load_file_json_branch (ld : Loaders) (fs : String → Option String) (p : String)
    (hj : strEndsWith (pyLower p) ".json" = true) :
    load_file ld fs p =
      match fs p with
      | none => .error (.fileNotFound p)
      | some content => (ld.json_load content).mapError .jsonDecodeError := by
  unfold load_file
  rw [if_pos hj]

theorem load_file_yaml_branch (ld : Loaders) (fs : String → Option String) (p : String)
    (hj : strEndsWith (pyLower p) ".json" = false)
    (hy : (strEndsWith (pyLower p) ".yaml" || strEndsWith (pyLower p) ".yml") = true) :
    load_file ld fs p =
      match fs p with
      | none => .error (.fileNotFound p)
      | some content => (ld.yaml_safe_load content).mapError .yamlError := by
  unfold load_file
  rw [if_neg (by simp [hj]), if_pos hy]

theorem load_file_other_branch (ld : Loaders) (fs : String → Option String) (p : String)
    (hj : strEndsWith (pyLower p) ".json" = false)
    (hy : strEndsWith (pyLower p) ".yaml" = false) (hm : strEndsWith (pyLower p) ".yml" = false) :
    load_file ld fs p =
      .error (.validatorError "Unknown file format. Supported extension: '.yaml', '.json'") := by
  unfold load_file
  rw [if_neg (by simp [hj]), if_neg (by simp [hy, hm])]

/-! ## Claims C2 and C3: the default-enforcement rule -/

/-- C2: with `--enforce-defaults`, for a sub-schema carrying default 5 on property
`x`, an instance with `x = 5` produces no error from the default rule, an instance
with `x = 6` produces exactly one error, and for every sub-schema whose default is
the literal string "See values.yaml" every instance value passes the default rule. -/
theorem enforce_defaults_rule_spec :
    _create_validator [("x", some (.num 5))] true (.obj [("x", .num 5)]) = []
    ∧ (_create_validator [("x", some (.num 5))] true (.obj [("x", .num 6)])).length = 1
    ∧ ∀ inst : JValue, _default_validator (.str "See values.yaml") inst = [] := by
  refine ⟨by decide, by decide, ?_⟩
  intro inst
  unfold _default_validator
  rw [if_neg]
  intro h
  exact h.2 rfl

/-- C3 counterexample: an instance value equal to the literal string
"See values.yaml" is not accepted when the default is 5 — the exemption is not
keyed on the instance value. -/
theorem default_exemption_counterexample :
    _default_validator (.num 5) (.str "See values.yaml") ≠ [] := by decide

/-- C3 (amended): the default-enforcement rule accepts an instance exactly when it
equals the sub-schema's default or the default itself is the literal string
"See values.yaml"; the exemption is keyed on the default's value, not on the
instance value. -/
theorem default_exemption_keyed_on_default :
    ∀ (default inst : JValue),
      _default_validator default inst = []
        ↔ (default = inst ∨ default = .str "See values.yaml") := by
  intro d i
  unfold _default_validator
  by_cases h1 : d = i
  · simp [h1]
  · by_cases h2 : d = JValue.str "See values.yaml"
    · simp [h1, h2]
    · simp [h1, h2]

/-! ## Claims C8, C9, C10: file loading and spec loading -/

/-- C8: `load_file` dispatches purely on the case-insensitively matched extension —
`.json` to strict JSON parsing, `.yaml`/`.yml` to safe YAML parsing — and raises
the "unknown file format" error exactly when the extension is none of the three. -/
theorem load_file_dispatch_spec :
    ∀ (ld : Loaders) (fs : String → Option String) (p : String),
      (load_file ld fs p =
          .error (.validatorError "Unknown file format. Supported extension: '.yaml', '.json'")
        ↔ ¬(strEndsWith (pyLower p) ".json" = true ∨ strEndsWith (pyLower p) ".yaml" = true
            ∨ strEndsWith (pyLower p) ".yml" = true))
      ∧ (strEndsWith (pyLower p) ".json" = true →
          load_file ld fs p =
            match fs p with
            | none => .error (.fileNotFound p)
            | some content => (ld.json_load content).mapError .jsonDecodeError)
      ∧ (strEndsWith (pyLower p) ".json" = false →
          (strEndsWith (pyLower p) ".yaml" = true ∨ strEndsWith (pyLower p) ".yml" = true) →
          load_file ld fs p =
            match fs p with
            | none => .error (.fileNotFound p)
            | some content => (ld.yaml_safe_load content).mapError .yamlError) := by
  intro ld fs p
  refine ⟨?_, ?_, ?_⟩
  · constructor
    · intro h hdisj
      rcases hdisj with hj | hy | hm
      · rw [load_file_json_branch ld fs p hj] at h
        cases hfs : fs p with
        | none => rw [hfs] at h; exact absurd h (by simp)
        | some c =>
          rw [hfs] at h
          exact except_mapError_ne_validator _ _ (by intro s m; simp) _ h
      · by_cases hj : strEndsWith (pyLower p) ".json" = true
        · rw [load_file_json_branch ld fs p hj] at h
          cases hfs : fs p with
          | none => rw [hfs] at h; exact absurd h (by simp)
          | some c =>
            rw [hfs] at h
            exact except_mapError_ne_validator _ _ (by intro s m; simp) _ h
        · rw [load_file_yaml_branch ld fs p (by simpa using hj) (by simp [hy])] at h
          cases hfs : fs p with
          | none => rw [hfs] at h; exact absurd h (by simp)
          | some c =>
            rw [hfs] at h
            exact except_mapError_ne_validator _ _ (by intro s m; simp) _ h
      · by_cases hj : strEndsWith (pyLower p) ".json" = true
        · rw [load_file_json_branch ld fs p hj] at h
          cases hfs : fs p with
          | none => rw [hfs] at h; exact absurd h (by simp)
          | some c =>
            rw [hfs] at h
            exact except_mapError_ne_validator _ _ (by intro s m; simp) _ h
        · rw [load_file_yaml_branch ld fs p (by simpa using hj) (by simp [hm])] at h
          cases hfs : fs p with
          | none => rw [hfs] at h; exact absurd h (by simp)
          | some c =>
            rw [hfs] at h
            exact except_mapError_ne_validator _ _ (by intro s m; simp) _ h
    · intro h
      push_neg at h
      refine load_file_other_branch ld fs p ?_ ?_ ?_
      · simpa using h.1
      · simpa using h.2.1
      · simpa using h.2.2
  · intro hj
    exact load_file_json_branch ld fs p hj
  · intro hj hy
    exact load_file_yaml_branch ld fs p hj (by rcases hy with h | h <;> simp [h])

/-- C8 witness: a path with extension `.txt` hits the unknown-format error and a
`.JSON` path does not. -/
theorem load_file_dispatch_spec_witness :
    (load_file ⟨fun _ => .ok .null, fun _ => .ok .null⟩ (fun _ => none) "a.txt" =
        .error (.validatorError "Unknown file format. Supported extension: '.yaml', '.json'")
      ↔ ¬(strEndsWith (pyLower "a.txt") ".json" = true ∨ strEndsWith (pyLower "a.txt") ".yaml" = true
          ∨ strEndsWith (pyLower "a.txt") ".yml" = true))
    ∧ (strEndsWith (pyLower "a.txt") ".json" = true →
        load_file ⟨fun _ => .ok .null, fun _ => .ok .null⟩ (fun _ => none) "a.txt" =
          match (fun (_ : String) => (none : Option String)) "a.txt" with
          | none => .error (.fileNotFound "a.txt")
          | some content =>
            ((⟨fun _ => .ok .null, fun _ => .ok .null⟩ : Loaders).json_load content).mapError
              .jsonDecodeError)
    ∧ (strEndsWith (pyLower "a.txt") ".json" = false →
        (strEndsWith (pyLower "a.txt") ".yaml" = true ∨ strEndsWith (pyLower "a.txt") ".yml" = true) →
        load_file ⟨fun _ => .ok .null, fun _ => .ok .null⟩ (fun _ => none) "a.txt" =
          match (fun (_ : String) => (none : Option String)) "a.txt" with
          | none => .error (.fileNotFound "a.txt")
          | some content =>
            ((⟨fun _ => .ok .null, fun _ => .ok .null⟩ : Loaders).yaml_safe_load content).mapError
              .yamlError) :=
  load_file_dispatch_spec ⟨fun _ => .ok .null, fun _ => .ok .null⟩ (fun _ => none) "a.txt"

/-- C9: the JSON branch and the safe-YAML branch of `load_file` agree on
semantically identical inputs — a `.json` file whose content parses to a document
`d` and a `.yaml`/`.yml` file whose content parses to the same `d` load to equal
in-memory documents. -/
theorem load_file_json_yaml_agree :
    ∀ (ld : Loaders) (fs : String → Option String) (pj py cj cy : String) (d : JValue),
      strEndsWith (pyLower pj) ".json" = true →
      strEndsWith (pyLower py) ".json" = false →
      (strEndsWith (pyLower py) ".yaml" = true ∨ strEndsWith (pyLower py) ".yml" = true) →
      fs pj = some cj → fs py = some cy →
      ld.json_load cj = .ok d → ld.yaml_safe_load cy = .ok d →
      load_file ld fs pj = .ok d ∧ load_file ld fs py = .ok d
        ∧ load_file ld fs pj = load_file ld fs py := by
  intro ld fs pj py cj cy d hpj hpyj hpy hcj hcy hjl hyl
  have h1 : load_file ld fs pj = .ok d := by
    rw [load_file_json_branch ld fs pj hpj, hcj]
    dsimp only
    rw [hjl]
    rfl
  have h2 : load_file ld fs py = .ok d := by
    rw [load_file_yaml_branch ld fs py hpyj (by rcases hpy with h | h <;> simp [h]), hcy]
    dsimp only
    rw [hyl]
    rfl
  exact ⟨h1, h2, by rw [h1, h2]⟩

/-- C9 witness: concrete loaders where content "j" parses as JSON and content "y"
parses as YAML to the same document. -/
theorem load_file_json_yaml_agree_witness :
    load_file ⟨fun _ => .ok (.num 1), fun _ => .ok (.num 1)⟩
        (fun p => if p = "schema.json" then some "j" else some "y") "schema.json" =
        .ok (.num 1)
      ∧ load_file ⟨fun _ => .ok (.num 1), fun _ => .ok (.num 1)⟩
          (fun p => if p = "schema.json" then some "j" else some "y") "schema.yaml" =
          .ok (.num 1)
      ∧ load_file ⟨fun _ => .ok (.num 1), fun _ => .ok (.num 1)⟩
          (fun p => if p = "schema.json" then some "j" else some "y") "schema.json" =
        load_file ⟨fun _ => .ok (.num 1), fun _ => .ok (.num 1)⟩
          (fun p => if p = "schema.json" then some "j" else some "y") "schema.yaml" :=
  load_file_json_yaml_agree ⟨fun _ => .ok (.num 1), fun _ => .ok (.num 1)⟩
    (fun p => if p = "schema.json" then some "j" else some "y")
    "schema.json" "schema.yaml" "j" "y" (.num 1)
    (by decide) (by decide) (by decide) (by decide) (by decide) rfl rfl

/-- C10: `_load_spec` parses the schema document strictly as JSON regardless of the
spec path's extension — a `.yaml`/`.yml` spec whose content is valid YAML but not
valid JSON raises a JSON parse error instead of loading the schema. -/
theorem load_spec_parses_json_only :
    ∀ (ld : Loaders) (fs : String → Option String) (fetched : String → String)
      (path content e : String) (d : JValue),
      path ≠ "" →
      (strEndsWith (pyLower path) ".yaml" = true ∨ strEndsWith (pyLower path) ".yml" = true) →
      fs path = some content →
      ld.json_load content = .error e →
      ld.yaml_safe_load content = .ok d →
      _load_spec ld fs fetched (some path) none = .error (.jsonDecodeError e) := by
  intro ld fs fetched path content e d hne _hext hfs hjl _hyl
  unfold _load_spec
  dsimp only
  rw [if_neg hne, hfs]
  dsimp only
  rw [hjl]
  rfl

/-- C10 witness: a concrete `.yaml` spec path whose content YAML-parses but
JSON-fails is rejected with the JSON parse error. -/
theorem load_spec_parses_json_only_witness :
    ("spec.yaml" ≠ "")
    ∧ _load_spec ⟨fun _ => .error "Expecting value", fun _ => .ok (.str "doc")⟩
        (fun _ => some "a: 1") (fun u => u) (some "spec.yaml") none =
        .error (.jsonDecodeError "Expecting value") :=
  ⟨by decide,
    load_spec_parses_json_only ⟨fun _ => .error "Expecting value", fun _ => .ok (.str "doc")⟩
      (fun _ => some "a: 1") (fun u => u) "spec.yaml" "a: 1" "Expecting value" (.str "doc")
      (by decide) (by decide) rfl rfl rfl⟩

/-! ## Claims C4 and C5: the ETag cache -/

theorem lookup_map_set {β : Type} (k : String) (v : β) :
    ∀ (m : List (String × β)), m.any (fun p => p.1 == k) = true →
      (m.map (fun p => if p.1 == k then (k, v) else p)).lookup k = some v := by
  intro m
  induction m with
  | nil => intro h; simp at h
  | cons p rest ih =>
    intro h
    simp only [List.any_cons, Bool.or_eq_true] at h
    by_cases hp : (p.1 == k) = true
    · rw [List.map_cons, if_pos hp]
      simp [List.lookup]
    · rcases h with h | h
      · exact absurd h hp
      · have hne : p.1 ≠ k := fun e => hp (by simp [e])
        have hk2 : (k == p.1) = false := beq_eq_false_iff_ne.mpr (Ne.symm hne)
        rw [List.map_cons, if_neg hp]
        simp only [List.lookup, hk2]
        exact ih h

theorem lookup_append_single {β : Type} (k : String) (v : β) :
    ∀ (m : List (String × β)), m.any (fun p => p.1 == k) = false →
      (m ++ [(k, v)]).lookup k = some v := by
  intro m
  induction m with
  | nil => intro _; simp [List.lookup]
  | cons p rest ih =>
    intro h
    simp only [List.any_cons, Bool.or_eq_false_iff] at h
    have hp : (p.1 == k) = false := h.1
    have hrest : rest.any (fun p => p.1 == k) = false := h.2
    have hne : p.1 ≠ k := fun e => by simp [e] at hp
    have hk2 : (k == p.1) = false := beq_eq_false_iff_ne.mpr (Ne.symm hne)
    simp only [List.cons_append, List.lookup, hk2]
    exact ih hrest

theorem lookup_setAssoc {β : Type} (m : List (String × β)) (k : String) (v : β) :
    (setAssoc m k v).lookup k = some v := by
  unfold setAssoc
  by_cases hany : m.any (fun p => p.1 == k) = true
  · rw [if_pos hany]
    exact lookup_map_set k v m hany
  · rw [if_neg hany]
    exact lookup_append_single k v m (by cases hc : m.any (fun p => p.1 == k) with
      | false => rfl
      | true => exact absurd hc hany)

theorem fetch_slow_requests (server : HttpRequest → HttpResponse)
    (cache_key cache_filepath url : String) (cache_metadata : List (String × String))
    (st : CacheState) (reqs : List HttpRequest) :
    (fetch_slow server cache_key cache_filepath url cache_metadata st reqs).requests =
      reqs ++ [⟨url, none⟩] := by
  unfold fetch_slow
  dsimp only
  split
  · rfl
  · split
    · split
      · rfl
      · rfl
    · rfl

theorem fetch_slow_ok_etag (server : HttpRequest → HttpResponse)
    (cache_key cache_filepath url : String) (cache_metadata : List (String × String))
    (st : CacheState) (reqs : List HttpRequest) (et : String)
    (h1 : (server ⟨url, none⟩).status_code < 400)
    (h2 : (server ⟨url, none⟩).etag_header = some et)
    (h3 : et ≠ "") :
    fetch_slow server cache_key cache_filepath url cache_metadata st reqs =
      ⟨.ok cache_filepath,
        ⟨.parsed (setAssoc cache_metadata cache_key et),
          setAssoc st.blobs cache_filepath (server ⟨url, none⟩).content⟩,
        reqs ++ [⟨url, none⟩]⟩ := by
  unfold fetch_slow
  dsimp only
  rw [if_neg (by omega), h2]
  dsimp only
  rw [if_neg h3]

/-- C5: when the cache blob exists, a non-empty ETag is recorded for the URL's key,
and the conditional request answers 304, `fetch_and_cache` returns the existing
blob path, leaves the whole cache state (blob bytes and metadata file) unchanged,
and issues only the one conditional request — no unconditional body download. -/
theorem fetch_not_modified_frame :
    ∀ (gethash : String → String) (server : HttpRequest → HttpResponse)
      (url fname : String) (st : CacheState) (m : List (String × String)) (e : String),
      st.metadata = .parsed m →
      m.lookup (gethash url) = some e →
      e ≠ "" →
      (st.blobs.lookup (gethash url ++ "-" ++ fname.take 64)).isSome = true →
      (server ⟨url, some e⟩).status_code = 304 →
      fetch_and_cache gethash server url fname st =
        ⟨.ok (gethash url ++ "-" ++ fname.take 64), st, [⟨url, some e⟩]⟩ := by
  intro gethash server url fname st m e hm hl he hb h304
  obtain ⟨b, hb'⟩ := Option.isSome_iff_exists.mp hb
  simp only [fetch_and_cache, hm, hl, hb']
  rw [if_neg he, if_pos h304]

set_option maxRecDepth 8192 in
/-- C5 witness: a concrete cache state and 304-answering server. -/
theorem fetch_not_modified_frame_witness :
    ((⟨.parsed [("h", "W/1")], [("h-f.json", [9])]⟩ : CacheState).metadata =
        .parsed [("h", "W/1")])
    ∧ ([("h", "W/1")].lookup ((fun (_ : String) => "h") "u") = some "W/1")
    ∧ ("W/1" ≠ "")
    ∧ (((⟨.parsed [("h", "W/1")], [("h-f.json", [9])]⟩ : CacheState).blobs.lookup
          ((fun (_ : String) => "h") "u" ++ "-" ++ "f.json".take 64)).isSome = true)
    ∧ (((fun r => if r.if_none_match = some "W/1" then ⟨304, [], some "W/1"⟩
          else ⟨200, [1, 2], some "W/1"⟩ :
            HttpRequest → HttpResponse) ⟨"u", some "W/1"⟩).status_code = 304)
    ∧ fetch_and_cache (fun _ => "h")
        (fun r => if r.if_none_match = some "W/1" then ⟨304, [], some "W/1"⟩
          else ⟨200, [1, 2], some "W/1"⟩)
        "u" "f.json" ⟨.parsed [("h", "W/1")], [("h-f.json", [9])]⟩ =
        ⟨.ok ((fun (_ : String) => "h") "u" ++ "-" ++ "f.json".take 64),
          ⟨.parsed [("h", "W/1")], [("h-f.json", [9])]⟩, [⟨"u", some "W/1"⟩]⟩ :=
  ⟨rfl, by decide, by decide, by decide, by decide,
    fetch_not_modified_frame (fun _ => "h")
      (fun r => if r.if_none_match = some "W/1" then ⟨304, [], some "W/1"⟩
        else ⟨200, [1, 2], some "W/1"⟩)
      "u" "f.json" ⟨.parsed [("h", "W/1")], [("h-f.json", [9])]⟩ [("h", "W/1")] "W/1"
      rfl (by decide) (by decide) (by decide) (by decide)⟩

theorem fetch_conditional_first (gethash : String → String)
    (server : HttpRequest → HttpResponse) (url fname : String) (st1 : CacheState)
    (meta : List (String × String)) (et : String)
    (hm : st1.metadata = .parsed meta)
    (hl : meta.lookup (gethash url) = some et)
    (hb : (st1.blobs.lookup (gethash url ++ "-" ++ fname.take 64)).isSome = true)
    (hne : et ≠ "") :
    (fetch_and_cache gethash server url fname st1).requests.head? =
      some ⟨url, some et⟩ := by
  obtain ⟨b, hb'⟩ := Option.isSome_iff_exists.mp hb
  simp only [fetch_and_cache, hm, hl, hb']
  rw [if_neg hne]
  by_cases h304 : (server ⟨url, some et⟩).status_code = 304
  · rw [if_pos h304]
    rfl
  · rw [if_neg h304]
    rw [fetch_slow_requests]
    rfl

/-- C4: a first fetch whose response carries a (truthy) ETag persists that ETag in
the metadata under the URL's cache key and writes the blob; the immediately
following fetch of the same URL then issues a conditional request whose
`If-None-Match` header is exactly that ETag. -/
theorem fetch_etag_roundtrip :
    ∀ (gethash : String → String) (server1 server2 : HttpRequest → HttpResponse)
      (url fname : String) (st : CacheState) (et : String),
      st.blobs.lookup (gethash url ++ "-" ++ fname.take 64) = none →
      (server1 ⟨url, none⟩).status_code < 400 →
      (server1 ⟨url, none⟩).etag_header = some et →
      et ≠ "" →
      ∃ (st1 : CacheState) (meta : List (String × String)),
        fetch_and_cache gethash server1 url fname st =
          ⟨.ok (gethash url ++ "-" ++ fname.take 64), st1, [⟨url, none⟩]⟩
        ∧ st1.metadata = .parsed meta
        ∧ meta.lookup (gethash url) = some et
        ∧ (fetch_and_cache gethash server2 url fname st1).requests.head? =
            some ⟨url, some et⟩ := by
  intro gethash server1 server2 url fname st et hblob hstatus hetag hne
  rcases hmeta : st.metadata with _ | _ | mm
  · refine ⟨⟨.parsed (setAssoc [] (gethash url) et),
        setAssoc st.blobs (gethash url ++ "-" ++ fname.take 64)
          (server1 ⟨url, none⟩).content⟩,
      setAssoc [] (gethash url) et, ?_, rfl, lookup_setAssoc _ _ _, ?_⟩
    · simp only [fetch_and_cache, hmeta, hblob]
      rw [fetch_slow_ok_etag server1 _ _ url [] st [] et hstatus hetag hne]
      simp
    · exact fetch_conditional_first gethash server2 url fname _ _ et rfl
        (lookup_setAssoc _ _ _) (by rw [lookup_setAssoc]; rfl) hne
  · refine ⟨⟨.parsed (setAssoc [] (gethash url) et),
        setAssoc st.blobs (gethash url ++ "-" ++ fname.take 64)
          (server1 ⟨url, none⟩).content⟩,
      setAssoc [] (gethash url) et, ?_, rfl, lookup_setAssoc _ _ _, ?_⟩
    · simp only [fetch_and_cache, hmeta, hblob]
      rw [fetch_slow_ok_etag server1 _ _ url [] { st with metadata := .absent } []
        et hstatus hetag hne]
      simp
    · exact fetch_conditional_first gethash server2 url fname _ _ et rfl
        (lookup_setAssoc _ _ _) (by rw [lookup_setAssoc]; rfl) hne
  · refine ⟨⟨.parsed (setAssoc mm (gethash url) et),
        setAssoc st.blobs (gethash url ++ "-" ++ fname.take 64)
          (server1 ⟨url, none⟩).content⟩,
      setAssoc mm (gethash url) et, ?_, rfl, lookup_setAssoc _ _ _, ?_⟩
    · simp only [fetch_and_cache, hmeta, hblob]
      rw [fetch_slow_ok_etag server1 _ _ url mm st [] et hstatus hetag hne]
      simp
    · exact fetch_conditional_first gethash server2 url fname _ _ et rfl
        (lookup_setAssoc _ _ _) (by rw [lookup_setAssoc]; rfl) hne

set_option maxRecDepth 8192 in
/-- C4 witness: an empty cache and a server answering 200 with an ETag. -/
theorem fetch_etag_roundtrip_witness :
    ((⟨.absent, []⟩ : CacheState).blobs.lookup
        ((fun (_ : String) => "h") "u" ++ "-" ++ "f.json".take 64) = none)
    ∧ (((fun (_ : HttpRequest) => (⟨200, [7], some "E1"⟩ : HttpResponse))
          ⟨"u", none⟩).status_code < 400)
    ∧ (((fun (_ : HttpRequest) => (⟨200, [7], some "E1"⟩ : HttpResponse))
          ⟨"u", none⟩).etag_header = some "E1")
    ∧ ("E1" ≠ "")
    ∧ ∃ (st1 : CacheState) (meta : List (String × String)),
        fetch_and_cache (fun _ => "h") (fun _ => ⟨200, [7], some "E1"⟩) "u" "f.json"
            ⟨.absent, []⟩ =
          ⟨.ok ((fun (_ : String) => "h") "u" ++ "-" ++ "f.json".take 64), st1,
            [⟨"u", none⟩]⟩
        ∧ st1.metadata = .parsed meta
        ∧ meta.lookup ((fun (_ : String) => "h") "u") = some "E1"
        ∧ (fetch_and_cache (fun _ => "h")
            (fun r => if r.if_none_match = some "E1" then ⟨304, [], none⟩
              else ⟨200, [7], some "E1"⟩) "u" "f.json" st1).requests.head? =
            some ⟨"u", some "E1"⟩ :=
  ⟨by decide, by decide, by decide, by decide,
    fetch_etag_roundtrip (fun _ => "h") (fun _ => ⟨200, [7], some "E1"⟩)
      (fun r => if r.if_none_match = some "E1" then ⟨304, [], none⟩
        else ⟨200, [7], some "E1"⟩)
      "u" "f.json" ⟨.absent, []⟩ "E1" (by decide) (by decide) (by decide) (by decide)⟩

/-! ## Claim C1: `_process_files` aggregates over all files -/

theorem process_files_go_spec (ld : Loaders) (fs : String → Option String)
    (validator : JValue → List ValidationError) :
    ∀ (paths : List String) (code : Nat) (log : RunLog),
      (∀ p ∈ paths, (load_file ld fs p).isOk = true) →
      ∃ code' log',
        _process_files_go ld fs validator paths code log = .ok (code', log')
        ∧ log'.processed = log.processed ++ paths
        ∧ (code' = code ∨ code' = 1)
        ∧ (code' = 0 ↔
            (code = 0 ∧ ∀ p ∈ paths, ∀ v, load_file ld fs p = .ok v → validator v = [])) := by
  intro paths
  induction paths with
  | nil =>
    intro code log _
    exact ⟨code, log, rfl, by simp, Or.inl rfl, by simp⟩
  | cons p rest ih =>
    intro code log hload
    have hp := hload p (by simp)
    obtain ⟨v, hv⟩ : ∃ v, load_file ld fs p = .ok v := by
      cases hlf : load_file ld fs p with
      | ok v => exact ⟨v, rfl⟩
      | error e => rw [hlf] at hp; exact absurd hp (by simp [Except.isOk, Except.toBool])
    have hrest : ∀ q ∈ rest, (load_file ld fs q).isOk = true :=
      fun q hq => hload q (by simp [hq])
    obtain ⟨code', log', heq, hproc, hcode, hiff⟩ :=
      ih (if (validator v).isEmpty then code else 1)
        { processed := log.processed ++ [p], printed := log.printed ++ validator v } hrest
    refine ⟨code', log', ?_, ?_, ?_, ?_⟩
    · simp only [_process_files_go, hv]
      exact heq
    · rw [hproc]
      simp
    · by_cases he : (validator v).isEmpty
      · rw [if_pos he] at hcode
        exact hcode
      · rw [if_neg he] at hcode
        rcases hcode with h | h
        · exact Or.inr h
        · exact Or.inr h
    · by_cases he : (validator v).isEmpty
      · have hveq : validator v = [] := by simpa using he
        rw [if_pos he] at hiff
        rw [hiff]
        constructor
        · rintro ⟨h0, hall⟩
          refine ⟨h0, ?_⟩
          intro q hq v' hv'
          rcases List.mem_cons.mp hq with rfl | hq'
          · rw [hv] at hv'
            cases hv'
            exact hveq
          · exact hall q hq' v' hv'
        · rintro ⟨h0, hall⟩
          exact ⟨h0, fun q hq v' hv' => hall q (List.mem_cons_of_mem _ hq) v' hv'⟩
      · have hvne : validator v ≠ [] := fun e => he (by simp [e])
        rw [if_neg he] at hiff
        constructor
        · intro h0
          exact absurd (hiff.mp h0).1 one_ne_zero
        · rintro ⟨h0, hall⟩
          exact absurd (hall p (by simp) v hv) hvne

/-- C1: under a fixed validator, when every input file loads, `_process_files`
loads and validates every file in the list (it never stops at a failing file),
returns exit code 0 exactly when every file yields zero validation errors, and
returns 1 whenever any single file yields at least one error. -/
theorem process_files_exit_code_spec :
    ∀ (ld : Loaders) (fs : String → Option String)
      (validator : JValue → List ValidationError) (paths : List String),
      (∀ p ∈ paths, (load_file ld fs p).isOk = true) →
      ∃ code log,
        _process_files ld fs validator paths = .ok (code, log)
        ∧ log.processed = paths
        ∧ (code = 0 ∨ code = 1)
        ∧ (code = 0 ↔ ∀ p ∈ paths, ∀ v, load_file ld fs p = .ok v → validator v = []) := by
  intro ld fs validator paths hload
  obtain ⟨code, log, heq, hproc, hcode, hiff⟩ :=
    process_files_go_spec ld fs validator paths 0 ⟨[], []⟩ hload
  refine ⟨code, log, heq, by simpa using hproc, hcode, ?_⟩
  rw [hiff]
  simp

set_option maxRecDepth 8192 in
/-- C1 witness: two loadable files of which the first fails validation; the run
still processes both and exits 1. -/
theorem process_files_exit_code_spec_witness :
    (∀ p ∈ ["a.json", "b.yaml"],
      (load_file ⟨fun _ => .ok (.num 3), fun _ => .ok .null⟩ (fun _ => some "c") p).isOk
        = true)
    ∧ ∃ code log,
        _process_files ⟨fun _ => .ok (.num 3), fun _ => .ok .null⟩ (fun _ => some "c")
            (fun v => if v = .num 3 then [ValidationError.mk "bad"] else [])
            ["a.json", "b.yaml"] = .ok (code, log)
        ∧ log.processed = ["a.json", "b.yaml"]
        ∧ (code = 0 ∨ code = 1)
        ∧ (code = 0 ↔ ∀ p ∈ ["a.json", "b.yaml"], ∀ v,
            load_file ⟨fun _ => .ok (.num 3), fun _ => .ok .null⟩ (fun _ => some "c") p
              = .ok v →
            (fun v => if v = .num 3 then [ValidationError.mk "bad"] else []) v = []) :=
  ⟨by decide,
    process_files_exit_code_spec ⟨fun _ => .ok (.num 3), fun _ => .ok .null⟩
      (fun _ => some "c") (fun v => if v = .num 3 then [ValidationError.mk "bad"] else [])
      ["a.json", "b.yaml"] (by decide)⟩

/-! ## Claim C6: the guide-reference check -/

theorem guideErrMsg_inj (a b : String) (h : guideErrMsg a = guideErrMsg b) : a = b := by
  have hd := congrArg String.data h
  simp only [guideErrMsg, String.data_append, List.append_assoc] at hd
  have hd2 := List.append_cancel_left hd
  have hlen : a.data.length = b.data.length := by
    have hl := congrArg List.length hd2
    simp only [List.length_append] at hl
    omega
  exact String.ext (List.append_inj_left hd2 hlen)

theorem check_operator_in_module_cases (m : PyModule) (op : String) :
    check_operator_in_module m op = []
    ∨ ∃ cd, extract_ast_class_def_by_name m.astClasses op = some cd
        ∧ check_operator_in_module m op =
            [_generate_missing_guide_error m.path cd.lineno op] := by
  unfold check_operator_in_module
  by_cases hsub : strContains m.content ("class " ++ op) = false
  · rw [if_pos hsub]
    exact Or.inl rfl
  · rw [if_neg hsub]
    cases hext : extract_ast_class_def_by_name m.astClasses op with
    | none => exact Or.inl rfl
    | some cd =>
      dsimp only
      cases hds : cd.docstring with
      | none => exact Or.inr ⟨cd, rfl, rfl⟩
      | some ds =>
        dsimp only
        by_cases hne : ds ≠ ""
        · rw [if_pos hne]
          by_cases hdep : strContains ds "This class is deprecated." = true
          · rw [if_pos hdep]
            exact Or.inl rfl
          · rw [if_neg hdep]
            by_cases href : strContains ds (":ref:`howto/operator:" ++ op ++ "`") = true
            · rw [if_pos href]
              exact Or.inl rfl
            · rw [if_neg href]
              exact Or.inr ⟨cd, rfl, rfl⟩
        · rw [if_neg hne]
          exact Or.inr ⟨cd, rfl, rfl⟩

theorem mem_check_operator_in_module (m : PyModule) (op : String) (e : DocBuildError)
    (he : e ∈ check_operator_in_module m op) :
    e.file_path = m.path ∧ e.message = guideErrMsg op := by
  rcases check_operator_in_module_cases m op with hc | ⟨cd, _, hc⟩
  · rw [hc] at he
    simp at he
  · rw [hc] at he
    simp only [List.mem_singleton] at he
    subst he
    exact ⟨rfl, rfl⟩

theorem filter_check_operator_other (m : PyModule) (path op op' : String)
    (hne : op' ≠ op) :
    (check_operator_in_module m op').filter (guideErrFor path op) = [] := by
  rcases check_operator_in_module_cases m op' with hc | ⟨cd, _, hc⟩
  · rw [hc]
    rfl
  · rw [hc]
    have hmsg : (guideErrMsg op' == guideErrMsg op) = false :=
      beq_eq_false_iff_ne.mpr (fun e => hne (guideErrMsg_inj _ _ e))
    simp [guideErrFor, _generate_missing_guide_error, hmsg]

theorem filter_check_operator_self (m : PyModule) (op : String) :
    (check_operator_in_module m op).filter (guideErrFor m.path op) =
      check_operator_in_module m op := by
  rcases check_operator_in_module_cases m op with hc | ⟨cd, _, hc⟩
  · rw [hc]
    rfl
  · rw [hc]
    simp [guideErrFor, _generate_missing_guide_error]

theorem filter_flatMap_not_mem (m : PyModule) (op : String) :
    ∀ names : List String, op ∉ names →
      ((names.flatMap (check_operator_in_module m)).filter (guideErrFor m.path op)) = [] := by
  intro names
  induction names with
  | nil => intro _; rfl
  | cons q rest ih =>
    intro h
    have hqne : q ≠ op := by
      intro e
      exact h (by simp [e])
    rw [List.flatMap_cons, List.filter_append,
      filter_check_operator_other m m.path op q hqne,
      ih (fun hh => h (List.mem_cons_of_mem _ hh))]
    rfl

theorem filter_flatMap_mem (m : PyModule) (op : String) :
    ∀ names : List String, names.Nodup → op ∈ names →
      ((names.flatMap (check_operator_in_module m)).filter (guideErrFor m.path op)) =
        check_operator_in_module m op := by
  intro names
  induction names with
  | nil => intro _ hop; simp at hop
  | cons q rest ih =>
    intro hnd hop
    have hnd' := List.nodup_cons.mp hnd
    rw [List.flatMap_cons, List.filter_append]
    rcases List.mem_cons.mp hop with heq | hop'
    · subst heq
      rw [filter_check_operator_self, filter_flatMap_not_mem m op rest hnd'.1]
      simp
    · have hqne : q ≠ op := by
        intro e
        subst e
        exact hnd'.1 hop'
      rw [filter_check_operator_other m m.path op q hqne, ih hnd'.2 hop']
      simp

theorem mem_check_module_guide_refs (names : List String) (m : PyModule)
    (e : DocBuildError) (he : e ∈ check_module_guide_refs names m) :
    e.file_path = m.path := by
  unfold check_module_guide_refs at he
  split at he
  · simp at he
  · obtain ⟨op', _, he'⟩ := List.mem_flatMap.mp he
    exact (mem_check_operator_in_module m op' e he').1

theorem filter_check_module_other (names : List String) (m' : PyModule)
    (path op : String) (hpath : m'.path ≠ path) :
    (check_module_guide_refs names m').filter (guideErrFor path op) = [] := by
  rw [List.filter_eq_nil_iff]
  intro e he
  have hfp := mem_check_module_guide_refs names m' e he
  simp only [guideErrFor, Bool.and_eq_true, beq_iff_eq]
  intro hc
  exact hpath (hfp ▸ hc.1)

theorem filter_check_module_self (names : List String) (m : PyModule) (op : String)
    (hnames : names.Nodup) (hop : op ∈ names)
    (hdep : strContains m.content "This module is deprecated" = false) :
    (check_module_guide_refs names m).filter (guideErrFor m.path op) =
      check_operator_in_module m op := by
  unfold check_module_guide_refs
  rw [if_neg (by simp [hdep])]
  exact filter_flatMap_mem m op names hnames hop

theorem filter_check_missing_guide_references (names : List String) (op : String)
    (hnames : names.Nodup) (hop : op ∈ names) :
    ∀ (modules : List PyModule) (m : PyModule),
      (modules.map PyModule.path).Nodup → m ∈ modules →
      strContains m.content "This module is deprecated" = false →
      (_check_missing_guide_references names modules).filter (guideErrFor m.path op) =
        check_operator_in_module m op := by
  intro modules
  induction modules with
  | nil => intro m _ hm _; simp at hm
  | cons m0 rest ih =>
    intro m hnd hm hdep
    rw [List.map_cons, List.nodup_cons] at hnd
    unfold _check_missing_guide_references
    rw [List.flatMap_cons, List.filter_append]
    rcases List.mem_cons.mp hm with heq | hm'
    · subst heq
      rw [filter_check_module_self names m op hnames hop hdep]
      have hrest :
          ((rest.flatMap (check_module_guide_refs names)).filter (guideErrFor m.path op))
            = [] := by
        rw [List.filter_eq_nil_iff]
        intro e he
        obtain ⟨m', hm'', he'⟩ := List.mem_flatMap.mp he
        have hfp := mem_check_module_guide_refs names m' e he'
        have hne : m'.path ≠ m.path := by
          intro hpe
          exact hnd.1 (hpe ▸ List.mem_map_of_mem PyModule.path hm'')
        simp only [guideErrFor, Bool.and_eq_true, beq_iff_eq]
        intro hc
        exact hne (hfp ▸ hc.1)
      rw [hrest]
      simp
    · have hpath_ne : m0.path ≠ m.path := by
        intro hpe
        exact hnd.1 (hpe ▸ List.mem_map_of_mem PyModule.path hm')
      rw [filter_check_module_other names m0 m.path op hpath_ne]
      have := ih m hnd.2 hm' hdep
      unfold _check_missing_guide_references at this
      rw [this]
      simp

theorem check_operator_eval_error (m : PyModule) (op : String) (cd : ClassDef)
    (ds : String)
    (hsub : strContains m.content ("class " ++ op) = true)
    (hext : extract_ast_class_def_by_name m.astClasses op = some cd)
    (hds : cd.docstring = some ds) (hne : ds ≠ "")
    (hdep : strContains ds "This class is deprecated." = false)
    (href : strContains ds (":ref:`howto/operator:" ++ op ++ "`") = false) :
    check_operator_in_module m op =
      [_generate_missing_guide_error m.path cd.lineno op] := by
  unfold check_operator_in_module
  rw [if_neg (by simp [hsub]), hext]
  dsimp only
  rw [hds]
  dsimp only
  rw [if_pos hne, if_neg (by simp [hdep]), if_neg (by simp [href])]

theorem check_operator_eval_deprecated (m : PyModule) (op : String) (cd : ClassDef)
    (ds : String)
    (hext : extract_ast_class_def_by_name m.astClasses op = some cd)
    (hds : cd.docstring = some ds) (hne : ds ≠ "")
    (hdep : strContains ds "This class is deprecated." = true) :
    check_operator_in_module m op = [] := by
  unfold check_operator_in_module
  by_cases hsub : strContains m.content ("class " ++ op) = false
  · rw [if_pos hsub]
  · rw [if_neg hsub, hext]
    dsimp only
    rw [hds]
    dsimp only
    rw [if_pos hne, if_pos hdep]

/-- C6: for a known anchor name and a module defining a class with exactly that
name (found by the AST lookup, with the substring pre-filter passing), where the
module is not marked deprecated: if the class's docstring contains neither the
anchor reference nor the deprecation marker, `_check_missing_guide_references`
produces exactly one `DocBuildError` for that pair, whose `line_no` is the class
definition's line number; and if the docstring contains
"This class is deprecated.", no error is produced for that class. -/
theorem missing_guide_reference_errors_spec :
    ∀ (names : List String) (modules : List PyModule) (op : String) (m : PyModule)
      (cd : ClassDef) (ds : String),
      names.Nodup → (modules.map PyModule.path).Nodup →
      op ∈ names → m ∈ modules →
      strContains m.content "This module is deprecated" = false →
      strContains m.content ("class " ++ op) = true →
      extract_ast_class_def_by_name m.astClasses op = some cd →
      cd.docstring = some ds → ds ≠ "" →
      ((strContains ds "This class is deprecated." = false →
          strContains ds (":ref:`howto/operator:" ++ op ++ "`") = false →
          (_check_missing_guide_references names modules).filter (guideErrFor m.path op)
            = [_generate_missing_guide_error m.path cd.lineno op])
        ∧ (strContains ds "This class is deprecated." = true →
            (_check_missing_guide_references names modules).filter (guideErrFor m.path op)
              = [])) := by
  intro names modules op m cd ds hnames hpaths hop hm hmdep hsub hext hds hne
  have hfilter := filter_check_missing_guide_references names op hnames hop modules m
    hpaths hm hmdep
  constructor
  · intro hdep href
    rw [hfilter, check_operator_eval_error m op cd ds hsub hext hds hne hdep href]
  · intro hdep
    rw [hfilter, check_operator_eval_deprecated m op cd ds hext hds hne hdep]

set_option maxRecDepth 8192 in
/-- C6 witness: one module defining `FooOp` whose docstring lacks the anchor
reference; the check yields exactly the one expected error at the class's line. -/
theorem missing_guide_reference_errors_spec_witness :
    (["FooOp"].Nodup ∧ ([(⟨"mod.py", "class FooOp: pass", [⟨"FooOp", 3, some "x"⟩]⟩ :
        PyModule)].map PyModule.path).Nodup
      ∧ "FooOp" ∈ ["FooOp"]
      ∧ (⟨"mod.py", "class FooOp: pass", [⟨"FooOp", 3, some "x"⟩]⟩ : PyModule) ∈
          [(⟨"mod.py", "class FooOp: pass", [⟨"FooOp", 3, some "x"⟩]⟩ : PyModule)]
      ∧ strContains "class FooOp: pass" "This module is deprecated" = false
      ∧ strContains "class FooOp: pass" ("class " ++ "FooOp") = true
      ∧ extract_ast_class_def_by_name [⟨"FooOp", 3, some "x"⟩] "FooOp" =
          some ⟨"FooOp", 3, some "x"⟩
      ∧ (some "x" : Option String) = some "x" ∧ "x" ≠ "")
    ∧ ((strContains "x" "This class is deprecated." = false →
          strContains "x" (":ref:`howto/operator:" ++ "FooOp" ++ "`") = false →
          (_check_missing_guide_references ["FooOp"]
              [⟨"mod.py", "class FooOp: pass", [⟨"FooOp", 3, some "x"⟩]⟩]).filter
              (guideErrFor "mod.py" "FooOp")
            = [_generate_missing_guide_error "mod.py" 3 "FooOp"])
        ∧ (strContains "x" "This class is deprecated." = true →
            (_check_missing_guide_references ["FooOp"]
                [⟨"mod.py", "class FooOp: pass", [⟨"FooOp", 3, some "x"⟩]⟩]).filter
                (guideErrFor "mod.py" "FooOp")
              = [])) :=
  ⟨⟨by decide, by decide, by decide, by decide, by decide, by decide, by decide, rfl,
      by decide⟩,
    missing_guide_reference_errors_spec ["FooOp"]
      [⟨"mod.py", "class FooOp: pass", [⟨"FooOp", 3, some "x"⟩]⟩] "FooOp"
      ⟨"mod.py", "class FooOp: pass", [⟨"FooOp", 3, some "x"⟩]⟩ ⟨"FooOp", 3, some "x"⟩
      "x" (by decide) (by decide) (by decide) (by decide) (by decide) (by decide)
      (by decide) rfl (by decide)⟩

/-! ## Claim C7: `run_all_check` error handling -/

/-- C7 counterexample: with provider checks enabled, a provider whose
`docs/index.rst` does not exist makes `run_all_check` raise a `ValueError` (from
`get_indexfile`) and abort instead of returning the list of findings — the run is
terminated before any list is produced. -/
theorem run_all_check_aborts_counterexample :
    run_all_check ⟨"", [], [], [⟨"apache-airflow-providers-foo", [], [], none⟩], []⟩ false
      = .error
        "The index.rst for apache-airflow-providers-foo does not exist at /providers/foo/docs/index.rst" := by
  rfl

theorem check_pypi_go_ok (root : String) :
    ∀ ps : List Provider, (∀ p ∈ ps, p.index_content ≠ none) →
      ∃ l, check_pypi_go root ps = .ok l := by
  intro ps
  induction ps with
  | nil => intro _; exact ⟨[], rfl⟩
  | cons p rest ih =>
    intro h
    have hp := h p (by simp)
    cases hic : p.index_content with
    | none => exact absurd hic hp
    | some c =>
      obtain ⟨l, hl⟩ := ih (fun q hq => h q (by simp [hq]))
      simp only [check_pypi_go, get_indexfile, hic, hl]
      split
      · exact ⟨_, rfl⟩
      · exact ⟨l, rfl⟩

/-- C7 (amended): every violation found by a check is collected as a
`DocBuildError` in the returned list and a single run returns all findings from
all enabled checks — provided that, when provider checks are enabled, every
provider's `docs/index.rst` exists; a missing index file makes `get_indexfile`
raise a `ValueError` that aborts the run before the list is returned. -/
theorem run_all_check_collects_all :
    ∀ (w : DocsWorld) (disable : Bool),
      (disable = true ∨ ∀ p ∈ w.providers, p.index_content ≠ none) →
      ∃ provider_errs,
        run_all_check w disable =
          .ok (check_guide_links_in_operator_descriptions w
            ++ check_enforce_code_block w
            ++ check_exampleinclude_for_example_dags w
            ++ provider_errs)
        ∧ (disable = true → provider_errs = []) := by
  intro w disable h
  cases disable with
  | true =>
    refine ⟨[], ?_, fun _ => rfl⟩
    simp [run_all_check]
  | false =>
    rcases h with h | h
    · exact absurd h (by simp)
    · obtain ⟨l, hl⟩ := check_pypi_go_ok w.root w.providers h
      refine ⟨l, ?_, by simp⟩
      simp [run_all_check, check_pypi_repository_in_provider_tocs, hl]

/-- C7 witness: a world whose one provider has an index file; the run returns the
concatenation of all checks' findings. -/
theorem run_all_check_collects_all_witness :
    ((false : Bool) = true ∨
      ∀ p ∈ ([⟨"apache-airflow-providers-foo", [], [], some "x"⟩] : List Provider),
        p.index_content ≠ none)
    ∧ ∃ provider_errs,
        run_all_check
            ⟨"", [], [], [⟨"apache-airflow-providers-foo", [], [], some "x"⟩],
              [("d.rst", ".. code:: python")]⟩ false =
          .ok (check_guide_links_in_operator_descriptions
              ⟨"", [], [], [⟨"apache-airflow-providers-foo", [], [], some "x"⟩],
                [("d.rst", ".. code:: python")]⟩
            ++ check_enforce_code_block
              ⟨"", [], [], [⟨"apache-airflow-providers-foo", [], [], some "x"⟩],
                [("d.rst", ".. code:: python")]⟩
            ++ check_exampleinclude_for_example_dags
              ⟨"", [], [], [⟨"apache-airflow-providers-foo", [], [], some "x"⟩],
                [("d.rst", ".. code:: python")]⟩
            ++ provider_errs)
        ∧ ((false : Bool) = true → provider_errs = []) :=
  ⟨Or.inr (by decide),
    run_all_check_collects_all
      ⟨"", [], [], [⟨"apache-airflow-providers-foo", [], [], some "x"⟩],
        [("d.rst", ".. code:: python")]⟩ false (Or.inr (by decide))⟩
